import Mathlib

/-!
Shallow embedding of the Quant-bot aggressive momentum strategy
(src/aggressive_momentum_strategy.py) over exact rational arithmetic,
together with proofs of the spec's testable properties.

Prices, percentages and scores are modelled as rationals; symbols are
modelled as base/quote currency pairs (the source's "BTC/USDT" strings,
with `split('/')[0]` becoming the `base` projection).
-/

namespace QuantBot

/-- Strategy parameters, from the module-level constants of
aggressive_momentum_strategy.py. -/
def MOMENTUM_ACCELERATION_WEIGHT : ℚ := 3/10

def RSI_BUY_THRESHOLD : ℚ := 45
def RSI_SELL_THRESHOLD : ℚ := 70
def RSI_STRONG_BUY : ℚ := 35
def RSI_OVERSOLD : ℚ := 30

def ATR_STOP_MULTIPLIER : ℚ := 2
def MAX_SINGLE_POSITION_PCT : ℚ := 3/10
def MAX_TOTAL_POSITION_PCT : ℚ := 13/20
def MIN_TRADE_USDT : ℚ := 6
def BASE_POSITION_PCT : ℚ := 1/5
def VOLATILITY_TARGET : ℚ := 2

def HARD_STOP_LOSS_PCT : ℚ := 7/2
def TRAILING_STOP_ATR_MULT : ℚ := 3/2
def MIN_TAKE_PROFIT_PCT : ℚ := 2

/-- Partial profit taking levels: at 3% sell 30%, at 5% sell 35% of the
remainder, at 8% sell 50% of the remainder. -/
def PARTIAL_PROFIT_LEVELS : List (ℚ × ℚ) := [(3, 3/10), (5, 7/20), (8, 1/2)]

def AGGRESSIVE_TAKE_PROFIT_PCT : ℚ := 12
def DAILY_LOSS_LIMIT_PCT : ℚ := 5
def MAX_DRAWDOWN_PCT : ℚ := 12
def BEAR_MARKET_POSITION_MULT : ℚ := 1/2
def VOLUME_BREAKOUT_BONUS : ℚ := 10
def ROTATION_INTERVAL_HOURS : ℚ := 6
def MIN_ROTATION_IMPROVEMENT : ℚ := 3
def STALE_POSITION_HOURS : ℚ := 48
def STALE_POSITION_MIN_LOSS : ℚ := -1
def MAX_CORRELATION : ℚ := 17/20

/-- Python's built-in min on rationals (kernel-reducible form). -/
def rmin (a b : ℚ) : ℚ := if a ≤ b then a else b

/-- Python's built-in max on rationals (kernel-reducible form). -/
def rmax (a b : ℚ) : ℚ := if a ≤ b then b else a

/-- Python's built-in abs on rationals (kernel-reducible form). -/
def rabs (a : ℚ) : ℚ := if a < 0 then -a else a

/-- rmin is Mathlib's min. -/
theorem rmin_eq_min (a b : ℚ) : rmin a b = min a b := (min_def a b).symm

/-- rmax is Mathlib's max. -/
theorem rmax_eq_max (a b : ℚ) : rmax a b = max a b := (max_def a b).symm

/-- Direction of a trend on one timeframe (the source's 'UP' / 'DOWN'). -/
inductive Trend where
  | UP
  | DOWN
  deriving DecidableEq, Repr

/-- On-balance-volume trend (the source's 'UP' / 'DOWN' / 'NEUTRAL'). -/
inductive ObvTrend where
  | UP
  | DOWN
  | NEUTRAL
  deriving DecidableEq, Repr

/-- RSI divergence classification from detect_rsi_divergence. -/
inductive Divergence where
  | BULLISH
  | BEARISH
  | NONE
  deriving DecidableEq, Repr

/-- Market regime from detect_market_regime. -/
inductive Regime where
  | BULL
  | BEAR
  | NEUTRAL
  deriving DecidableEq, Repr

/-- A trading pair such as "BTC/USDT": currency codes are numbers, and
the source's symbol.split('/')[0] becomes the base projection. -/
structure Symbol where
  base : ℕ
  quote : ℕ
  deriving DecidableEq, Repr

/-- The per-instrument market data dictionary built by get_market_data
(only the fields read by scoring, sizing and the buy/sell decisions). -/
structure MarketData where
  symbol : Symbol
  price : ℚ
  momentum_short : ℚ
  momentum_score : ℚ
  momentum_accel : ℚ
  rsi_1h : ℚ
  rsi_15m : ℚ
  macd_signal : ℚ
  atr : ℚ
  atr_pct : ℚ
  volume_vs_avg : ℚ
  is_volume_breakout : Bool
  adx : ℚ
  trend_1h : Trend
  trend_4h : Trend
  overall_trend : Trend
  obv_trend : ObvTrend
  divergence_type : Divergence
  divergence_strength : ℚ
  is_pullback : Bool
  deriving DecidableEq, Repr

/-- A position record as returned by client.get_all_positions (only the
fields read by the strategy). -/
structure PosInfo where
  symbol : Symbol
  currency : ℕ
  amount : ℚ
  current_price : ℚ
  current_value : ℚ
  pnl_percent : ℚ
  avg_price : Option ℚ
  deriving DecidableEq, Repr

/-- AggressiveMomentumStrategy.calculate_coin_score: additive scoring of
momentum, RSI, MACD, trend, volume, ADX, OBV, divergence and pullback,
translated term by term from the source. -/
def calculate_coin_score (data : MarketData) : ℚ :=
  let score : ℚ := 0
  -- 1. Momentum score (30%) - with acceleration bonus
  let score := score + data.momentum_score * 3
  let score := if data.momentum_accel > 1/2 then score + 5 else score
  -- 2. RSI score (20%) - favor recovering oversold
  let rsi := data.rsi_1h
  let rsi_score : ℚ :=
    if RSI_OVERSOLD < rsi ∧ rsi < RSI_STRONG_BUY then 20
    else if rsi < RSI_BUY_THRESHOLD then 15
    else if rsi > RSI_SELL_THRESHOLD then -10
    else 5
  let rsi_score :=
    if data.rsi_15m > data.rsi_1h ∧ rsi < RSI_BUY_THRESHOLD then rsi_score + 5 else rsi_score
  let score := score + rsi_score
  -- 3. MACD score (15%)
  let score := score + data.macd_signal * 12
  -- 4. Trend score (15%)
  let trend_score : ℚ :=
    (if data.trend_1h = Trend.UP then (5 : ℚ) else 0)
      + (if data.trend_4h = Trend.UP then 5 else 0)
      + (if data.overall_trend = Trend.UP then 5 else 0)
  let score := score + trend_score
  -- 5. Volume score (10%) - with breakout detection
  let volume_score : ℚ :=
    if data.is_volume_breakout then VOLUME_BREAKOUT_BONUS
    else if data.volume_vs_avg > 3/2 then 7
    else if data.volume_vs_avg > 1 then 3
    else 0
  let score := score + volume_score
  -- 6. ADX bonus (5%) - trend strength
  let score :=
    if data.adx > 30 then score + 5
    else if data.adx > 25 then score + 3
    else if data.adx < 15 then score - 3
    else score
  -- v2.1: OBV confirmation bonus (5%)
  let score :=
    if data.obv_trend = ObvTrend.UP ∧ data.overall_trend = Trend.UP then score + 5
    else if data.obv_trend = ObvTrend.DOWN ∧ data.overall_trend = Trend.UP then score - 3
    else score
  -- v2.1: RSI divergence bonus (5%)
  let score :=
    if data.divergence_type = Divergence.BULLISH then score + 5 * data.divergence_strength
    else if data.divergence_type = Divergence.BEARISH then score - 5 * data.divergence_strength
    else score
  -- v2.1: Pullback entry bonus (5%)
  let score := if data.is_pullback then score + 5 else score
  score

/-- Mutable attributes of AggressiveMomentumStrategy that the decision
methods can read or write (per-symbol dictionaries as association
lists; entry timestamps are represented by hours already held, and the
last-rotation timestamp by hours since the last rotation). -/
structure StratState where
  market_regime : Regime
  position_entry_prices : List (Symbol × ℚ)
  position_atr : List (Symbol × ℚ)
  position_high_prices : List (Symbol × ℚ)
  position_partial_sells : List (Symbol × List ℚ)
  position_entry_hours : List (Symbol × ℚ)
  last_rotation_hours : Option ℚ
  deriving Repr

/-- AggressiveMomentumStrategy.calculate_coin_score as a method call
with explicit state passing: its body reads only its `data` argument
and assigns no attribute of self, so the state passes through
unchanged. -/
def calculate_coin_score_call (s : StratState) (data : MarketData) : ℚ × StratState :=
  (calculate_coin_score data, s)

/-- AggressiveMomentumStrategy.calculate_position_size: base fraction of
equity, signal-tier multiplier, 60/40 volatility blend, regime, trend
and breakout multipliers, then caps at the single-position maximum and
95% of free capital, returning 0 below the minimum trade size. The
unused current_positions parameter of the source is kept. -/
def calculate_position_size (regime : Regime) (data : MarketData)
    (available_usdt : ℚ) (total_value : ℚ) (current_positions : ℕ) : ℚ :=
  let _ := current_positions
  let base_size := total_value * BASE_POSITION_PCT
  -- 1. Signal strength adjustment
  let coin_score := calculate_coin_score data
  let signal_multiplier : ℚ :=
    if coin_score > 30 then 8/5
    else if coin_score > 20 then 13/10
    else if coin_score > 10 then 1
    else 7/10
  -- 2. Volatility adjustment (risk parity)
  let base_size :=
    if data.atr_pct > 0 then
      let vol_adjusted_size := (VOLATILITY_TARGET / data.atr_pct) * base_size
      base_size * signal_multiplier * (3/5) + vol_adjusted_size * (2/5)
    else base_size * signal_multiplier
  -- 3. Market regime adjustment
  let base_size :=
    if regime = Regime.BEAR then base_size * BEAR_MARKET_POSITION_MULT
    else if regime = Regime.NEUTRAL then base_size * (4/5)
    else base_size
  -- 4. Trend confirmation adjustment
  let base_size :=
    if data.trend_1h = Trend.UP ∧ data.trend_4h = Trend.UP then base_size * (11/10)
    else if data.trend_1h = Trend.DOWN ∧ data.trend_4h = Trend.DOWN then base_size * (1/2)
    else base_size
  -- 5. Volume breakout bonus
  let base_size :=
    if data.is_volume_breakout ∧ data.momentum_short > 0 then base_size * (23/20)
    else base_size
  -- Cap at maximum
  let max_single := total_value * MAX_SINGLE_POSITION_PCT
  let adjusted_size := min base_size max_single
  -- Don't exceed available
  let adjusted_size := min adjusted_size (available_usdt * (19/20))
  -- Minimum check
  if adjusted_size < MIN_TRADE_USDT then 0 else adjusted_size

/-- The check_position_correlation helper: the largest absolute pairwise
correlation between the candidate's price series and each open
position's series (aligned to common length, only when at least 20
points are available), compared against MAX_CORRELATION. The numeric
correlation itself comes from the Indicator Provider collaborator
(calculate_correlation / numpy corrcoef), passed here as the function
argument corr. -/
def check_position_correlation (corr : List ℚ → List ℚ → ℚ) (new_symbol : Symbol)
    (existing_positions : List PosInfo) (price_data : List (Symbol × List ℚ)) :
    Bool × ℚ :=
  if existing_positions = [] then (true, 0)
  else
    match price_data.lookup new_symbol with
    | none => (true, 0)
    | some new_prices =>
      let max_corr := existing_positions.foldl (fun max_corr pos =>
        match price_data.lookup pos.symbol with
        | some pos_prices =>
          let min_len := min new_prices.length pos_prices.length
          if 20 ≤ min_len then
            rmax max_corr
              (rabs (corr (new_prices.drop (new_prices.length - min_len))
                    (pos_prices.drop (pos_prices.length - min_len))))
          else max_corr
        | none => max_corr) 0
      (decide (max_corr ≤ MAX_CORRELATION), max_corr)

/-- Reason tag for each early-return rejection branch of should_buy. -/
inductive BuyReject where
  | scoreTooLow
  | bearMarket
  | doubleDowntrend
  | rsiOverbought
  | negativeMomentum
  | weakTrend
  | tooCorrelated (max_corr : ℚ)
  | obvDivergence
  | bearishDivergence
  deriving DecidableEq, Repr

/-- Result of should_buy: the boolean decision, the rejection reason
when rejected (the source returns a reason string; here a tag carrying
the same data), and the returned score (0 on rejection). -/
structure BuyResult where
  buy : Bool
  reject : Option BuyReject
  score : ℚ
  deriving DecidableEq, Repr

/-- AggressiveMomentumStrategy.should_buy: the entry filters in source
order — score floor, bear-regime floor, double-downtrend floor, RSI
overbought, negative short momentum, weak ADX, correlation ceiling
against open positions, OBV divergence, strong bearish divergence. -/
def should_buy (corr : List ℚ → List ℚ → ℚ) (regime : Regime)
    (price_history : List (Symbol × List ℚ)) (data : MarketData)
    (existing_positions : List PosInfo) : BuyResult :=
  let score := calculate_coin_score data
  -- Condition 1: Score threshold
  if score < 10 then ⟨false, some BuyReject.scoreTooLow, 0⟩
  -- Condition 2: Market regime check
  else if regime = Regime.BEAR ∧ score < 25 then ⟨false, some BuyReject.bearMarket, 0⟩
  -- Condition 3: Trend alignment
  else if data.trend_1h = Trend.DOWN ∧ data.trend_4h = Trend.DOWN ∧ score < 25 then
    ⟨false, some BuyReject.doubleDowntrend, 0⟩
  -- Condition 4: RSI not overbought
  else if data.rsi_1h > 75 then ⟨false, some BuyReject.rsiOverbought, 0⟩
  -- Condition 5: Positive short-term momentum
  else if data.momentum_short < -1 then ⟨false, some BuyReject.negativeMomentum, 0⟩
  -- Condition 6: ADX check - prefer trending markets
  else if data.adx < 15 ∧ score < 20 then ⟨false, some BuyReject.weakTrend, 0⟩
  -- v2.1: Correlation filter - avoid highly correlated positions
  else if existing_positions ≠ [] ∧
      (check_position_correlation corr data.symbol existing_positions price_history).1 = false then
    ⟨false,
      some (BuyReject.tooCorrelated
        (check_position_correlation corr data.symbol existing_positions price_history).2), 0⟩
  -- v2.1: OBV confirmation check
  else if data.obv_trend = ObvTrend.DOWN ∧ data.momentum_short < 1 then
    ⟨false, some BuyReject.obvDivergence, 0⟩
  -- v2.1: Bearish divergence warning
  else if data.divergence_type = Divergence.BEARISH ∧ data.divergence_strength > 1/2 then
    ⟨false, some BuyReject.bearishDivergence, 0⟩
  else ⟨true, none, score⟩

/-- Reason tag for each return branch of should_sell (the source
returns a reason string; PARTIAL_PROFIT carries the triggered level and
its sell fraction). -/
inductive SellReason where
  | STOP_LOSS
  | STALE_POSITION
  | PARTIAL_PROFIT (level : ℚ) (portion : ℚ)
  | TRAILING_STOP
  | TAKE_PROFIT
  | RSI_EXTREME
  | MACD_BEARISH
  | MOMENTUM_REVERSAL
  | REGIME_SHIFT
  | BEARISH_DIVERGENCE
  | NONE
  deriving DecidableEq, Repr

/-- The slice of strategy state that should_sell reads and writes for
one symbol: the stored entry ATR, the stored high price, the hours the
position has been held (derived from position_entry_times and the
current wall clock), the set of already-triggered partial-profit
levels, and the detected market regime. -/
structure SellCtx where
  regime : Regime
  entry_atr : Option ℚ
  high_price : Option ℚ
  hours_held : Option ℚ
  partial_sells : List ℚ
  deriving DecidableEq, Repr

/-- Result of should_sell: the decision triple of the source plus the
updated per-symbol state (high price and triggered partial levels),
which the source mutates in place. -/
structure SellDecision where
  sell : Bool
  reason : SellReason
  portion : ℚ
  high_price : ℚ
  partial_sells : List ℚ
  deriving DecidableEq, Repr

/-- The partial-profit ladder scan of should_sell: the first (threshold,
fraction) pair in ladder order whose threshold the P&L meets and that
is not yet in the triggered set. -/
def findPartialLevel (pnl_pct : ℚ) (triggered : List ℚ) :
    List (ℚ × ℚ) → Option (ℚ × ℚ)
  | [] => none
  | (level_pct, sell_portion) :: rest =>
    if pnl_pct ≥ level_pct ∧ level_pct ∉ triggered then some (level_pct, sell_portion)
    else findPartialLevel pnl_pct triggered rest

/-- AggressiveMomentumStrategy.should_sell: updates the high-water mark
first, then checks in order the ATR-adjusted hard stop, the stale
position timeout, the partial-profit ladder, the trailing stop, the
absolute take profit, RSI extreme, MACD death cross, momentum reversal,
bear-regime shift and bearish divergence. -/
def should_sell (ctx : SellCtx) (data : MarketData) (position : PosInfo) : SellDecision :=
  let pnl_pct := position.pnl_percent
  let entry_price := position.avg_price.getD data.price
  let current_price := data.price
  -- Get ATR at entry (or current if not stored)
  let entry_atr := ctx.entry_atr.getD data.atr
  let atr_pct := if entry_price > 0 then (entry_atr / entry_price) * 100 else data.atr_pct
  -- Update high price tracking
  let high_price :=
    match ctx.high_price with
    | none => current_price
    | some h => if current_price > h then current_price else h
  let drawdown_from_high :=
    if high_price > 0 then ((high_price - current_price) / high_price) * 100 else 0
  -- Calculate dynamic stops based on ATR
  let dynamic_stop_loss := rmin (atr_pct * ATR_STOP_MULTIPLIER) HARD_STOP_LOSS_PCT
  let dynamic_trailing := rmin (atr_pct * TRAILING_STOP_ATR_MULT) 3
  -- 1. Hard stop loss (ATR-adjusted) - FULL EXIT
  if pnl_pct ≤ -dynamic_stop_loss then
    ⟨true, SellReason.STOP_LOSS, 1, high_price, ctx.partial_sells⟩
  -- v2.1: Time-based exit for stale positions
  else if (match ctx.hours_held with
           | some hours_held =>
             decide (hours_held ≥ STALE_POSITION_HOURS) && decide (pnl_pct ≤ STALE_POSITION_MIN_LOSS)
           | none => false) then
    ⟨true, SellReason.STALE_POSITION, 1, high_price, ctx.partial_sells⟩
  else
    -- v2.1: Partial profit taking - check each level
    match findPartialLevel pnl_pct ctx.partial_sells PARTIAL_PROFIT_LEVELS with
    | some (level_pct, sell_portion) =>
      ⟨true, SellReason.PARTIAL_PROFIT level_pct sell_portion, sell_portion, high_price,
        level_pct :: ctx.partial_sells⟩
    | none =>
      -- 2. Trailing stop (ATR-adjusted, only when in profit) - FULL EXIT
      if pnl_pct > MIN_TAKE_PROFIT_PCT ∧ drawdown_from_high > dynamic_trailing then
        ⟨true, SellReason.TRAILING_STOP, 1, high_price, ctx.partial_sells⟩
      -- 3. Aggressive take profit - FULL EXIT of remaining
      else if pnl_pct ≥ AGGRESSIVE_TAKE_PROFIT_PCT then
        ⟨true, SellReason.TAKE_PROFIT, 1, high_price, ctx.partial_sells⟩
      -- 4. RSI extreme overbought with profit - FULL EXIT
      else if data.rsi_1h ≥ 80 ∧ pnl_pct > 0 then
        ⟨true, SellReason.RSI_EXTREME, 1, high_price, ctx.partial_sells⟩
      -- 5. MACD death cross with profit
      else if data.macd_signal = -1 ∧ pnl_pct > 1 then
        ⟨true, SellReason.MACD_BEARISH, 1, high_price, ctx.partial_sells⟩
      -- 6. Strong momentum reversal
      else if data.momentum_short < -3 ∧ pnl_pct > 0 then
        ⟨true, SellReason.MOMENTUM_REVERSAL, 1, high_price, ctx.partial_sells⟩
      -- 7. Market regime shift to bear
      else if ctx.regime = Regime.BEAR ∧ pnl_pct > 0 ∧
          data.trend_1h = Trend.DOWN ∧ data.trend_4h = Trend.DOWN then
        ⟨true, SellReason.REGIME_SHIFT, 1, high_price, ctx.partial_sells⟩
      -- v2.1: Bearish divergence warning with profit
      else if data.divergence_type = Divergence.BEARISH ∧ pnl_pct > 2 ∧
          data.divergence_strength > 3/5 then
        ⟨true, SellReason.BEARISH_DIVERGENCE, 1, high_price, ctx.partial_sells⟩
      else ⟨false, SellReason.NONE, 0, high_price, ctx.partial_sells⟩

/-- One evaluation cycle's effect on the per-symbol state: the stored
high price and triggered-levels set are replaced by the values
should_sell wrote back. -/
def stepCtx (ctx : SellCtx) (data : MarketData) (position : PosInfo) : SellCtx :=
  let d := should_sell ctx data position
  { ctx with high_price := some d.high_price, partial_sells := d.partial_sells }

/-- Threads the per-symbol state through a sequence of evaluation
cycles. -/
def runCtx (ctx : SellCtx) : List (MarketData × PosInfo) → SellCtx
  | [] => ctx
  | (data, position) :: rest => runCtx (stepCtx ctx data position) rest

/-- The sequence of should_sell decisions over a sequence of evaluation
cycles, threading the per-symbol state. -/
def runSellsTrace (ctx : SellCtx) : List (MarketData × PosInfo) → List SellDecision
  | [] => []
  | (data, position) :: rest =>
    should_sell ctx data position :: runSellsTrace (stepCtx ctx data position) rest

/-- A proposed position rotation, as returned by check_rotation. -/
structure RotationPlan where
  sell_symbol : Symbol
  sell_score : ℚ
  buy_symbol : Symbol
  buy_score : ℚ
  improvement : ℚ
  deriving DecidableEq, Repr

/-- AggressiveMomentumStrategy.check_rotation: enforces the rotation
cool-down, scores the held positions present in market data, finds the
lowest-scoring holding (first on ties, as Python's min) and the
highest-scoring candidate whose base currency is not held (first on
ties, strict improvement over 0), and proposes a swap only when the
improvement margin is exceeded and the worst holding's P&L is below
1%. The last-rotation timestamp is represented by the hours elapsed
since the last rotation (none when no rotation has happened). -/
def check_rotation (hours_since_rotation : Option ℚ) (current_positions : List PosInfo)
    (market_data : List (Symbol × MarketData)) : Option RotationPlan :=
  if current_positions = [] then none
  -- Check rotation interval
  else if (match hours_since_rotation with
           | some hours_since => decide (hours_since < ROTATION_INTERVAL_HOURS)
           | none => false) then none
  else
    -- Calculate current position scores
    let current_scores := current_positions.filterMap (fun p =>
      (market_data.lookup p.symbol).map (fun d => (p.symbol, calculate_coin_score d)))
    match current_scores with
    | [] => none
    | first :: rest =>
      -- Find worst position (Python min keeps the first minimum)
      let worst := rest.foldl (fun w s => if s.2 < w.2 then s else w) first
      -- Find best alternative among unheld currencies
      let all_scores := market_data.map (fun sd => (sd.1, calculate_coin_score sd.2))
      let held_currencies := current_positions.map (fun p => p.currency)
      let best := all_scores.foldl (fun acc s =>
          if s.1.base ∉ held_currencies ∧ s.2 > acc.2 then (some s.1, s.2) else acc)
        ((none : Option Symbol), (0 : ℚ))
      match best.1 with
      | none => none
      | some best_new_symbol =>
        if best.2 > worst.2 + MIN_ROTATION_IMPROVEMENT then
          match current_positions.find? (fun p => decide (p.symbol = worst.1)) with
          | none => none
          | some worst_pos =>
            -- Only rotate if the worst holding is not already profitable
            if worst_pos.pnl_percent < 1 then
              some ⟨worst.1, worst.2, best_new_symbol, best.2, best.2 - worst.2⟩
            else none
        else none

/-- Outcome of check_risk_limits: tradable, or a halt with the
percentage that breached its limit (the source returns (False, reason
string) citing that percentage). -/
inductive RiskVerdict where
  | ok
  | drawdownHalt (drawdown : ℚ)
  | dailyLossHalt (daily_pnl : ℚ)
  deriving DecidableEq, Repr

/-- The strategy's daily-baseline attributes (daily_start_date as a day
number, daily_starting_value), which check_risk_limits resets on a date
change. -/
structure DailyState where
  daily_start_date : Option ℕ
  daily_starting_value : Option ℚ
  deriving DecidableEq, Repr

/-- AggressiveMomentumStrategy.check_risk_limits over the stored equity
history (the total_value series of the equity file; a missing or
unparsable file is the empty history, passing the length guard).
Computes drawdown from the peak of the full history against the last
entry and halts above MAX_DRAWDOWN_PCT, then resets the daily baseline
on a date change and halts when the daily loss exceeds
DAILY_LOSS_LIMIT_PCT. -/
def check_risk_limits (history : List ℚ) (today : ℕ) (ds : DailyState) :
    RiskVerdict × DailyState :=
  if history.length < 2 then (RiskVerdict.ok, ds)
  else
    let current_value := history.getLast?.getD 0
    let peak_value := history.foldl rmax current_value
    let drawdown := if peak_value > 0 then ((peak_value - current_value) / peak_value) * 100 else 0
    -- Max drawdown check
    if peak_value > 0 ∧ drawdown > MAX_DRAWDOWN_PCT then
      (RiskVerdict.drawdownHalt drawdown, ds)
    else
      -- Daily loss check
      let ds :=
        if ds.daily_start_date ≠ some today then
          ⟨some today, some current_value⟩
        else ds
      match ds.daily_starting_value with
      | none => (RiskVerdict.ok, ds)
      | some daily_starting_value =>
        if daily_starting_value > 0 ∧
            ((current_value - daily_starting_value) / daily_starting_value) * 100
              < -DAILY_LOSS_LIMIT_PCT then
          (RiskVerdict.dailyLossHalt
            (((current_value - daily_starting_value) / daily_starting_value) * 100), ds)
        else (RiskVerdict.ok, ds)

/-- Dictionary assignment on an association list (d[k] = v). -/
def aset {β : Type} (k : Symbol) (v : β) : List (Symbol × β) → List (Symbol × β)
  | [] => [(k, v)]
  | (k', v') :: rest => if k = k' then (k, v) :: rest else (k', v') :: aset k v rest

/-- Dictionary deletion on an association list (del d[k]). -/
def adel {β : Type} (k : Symbol) (l : List (Symbol × β)) : List (Symbol × β) :=
  l.filter (fun p => p.1 != k)

/-- The per-instrument record clearing that execute_sell performs on a
full exit. -/
def clearRecords (s : Symbol) (st : StratState) : StratState :=
  { st with
    position_entry_prices := adel s st.position_entry_prices,
    position_high_prices := adel s st.position_high_prices,
    position_atr := adel s st.position_atr,
    position_entry_hours := adel s st.position_entry_hours,
    position_partial_sells := adel s st.position_partial_sells }

/-- The per-symbol view of the strategy state that should_sell reads. -/
def ctxFor (st : StratState) (s : Symbol) : SellCtx :=
  ⟨st.market_regime, st.position_atr.lookup s, st.position_high_prices.lookup s,
    st.position_entry_hours.lookup s, (st.position_partial_sells.lookup s).getD []⟩

/-- The environment a cycle runs against: the persisted equity history,
the detected regime, the market data per whitelisted symbol, the open
positions, and the exchange collaborator's responses (minimum order
sizes, order success, fill price, balances) as oracles. -/
structure Env where
  equity_history : List ℚ
  today : ℕ
  regime : Regime
  market_data : List (Symbol × MarketData)
  positions : List PosInfo
  min_order_amount : Symbol → ℚ
  min_order_usdt : Symbol → ℚ
  sell_ok : Symbol → Bool
  buy_ok : Symbol → Bool
  fill_price : Symbol → ℚ
  total_value : ℚ
  usdt_free : ℚ
  corr : List ℚ → List ℚ → ℚ
  price_history : List (Symbol × List ℚ)

/-- The record bookkeeping of execute_buy after a filled order: entry
price and high price from the fill, ATR from the market data when
present, entry time now (zero hours held), empty partial-sell set. -/
def executeBuyRecords (env : Env) (s : Symbol) (data : Option MarketData)
    (st : StratState) : StratState :=
  { st with
    position_entry_prices := aset s (env.fill_price s) st.position_entry_prices,
    position_high_prices := aset s (env.fill_price s) st.position_high_prices,
    position_atr :=
      match data with
      | some d => aset s d.atr st.position_atr
      | none => st.position_atr,
    position_entry_hours := aset s 0 st.position_entry_hours,
    position_partial_sells := aset s [] st.position_partial_sells }

/-- Observable events of one run_once cycle, in execution order. -/
inductive Event where
  | riskHalt
  | riskOk
  | exitEval (s : Symbol)
  | sellExec (s : Symbol) (full : Bool)
  | rotationSell (s : Symbol)
  | rotationBuy (s : Symbol)
  | entryEval (s : Symbol)
  | buyExec (s : Symbol)
  deriving DecidableEq, Repr

/-- Accumulator for the exit-evaluation loop of run_once: events so
far, symbols fully exited, and the threaded strategy state. -/
structure ExitPhaseResult where
  events : List Event
  sold : List Symbol
  st : StratState

/-- One iteration of run_once's position-checking loop: evaluate
should_sell for a position whose symbol has market data, execute the
(possibly partial) sell unless it is dust or the order fails, clear
records and record the symbol as sold on a full exit. -/
def exitStep (env : Env) (acc : ExitPhaseResult) (pos : PosInfo) : ExitPhaseResult :=
  match env.market_data.lookup pos.symbol with
  | none => acc
  | some data =>
    let d := should_sell (ctxFor acc.st pos.symbol) data pos
    let st := { acc.st with
      position_high_prices := aset pos.symbol d.high_price acc.st.position_high_prices,
      position_partial_sells := aset pos.symbol d.partial_sells acc.st.position_partial_sells }
    if d.sell then
      let sell_amount := pos.amount * d.portion
      let is_full_exit := d.portion ≥ 1 ∨ sell_amount ≥ pos.amount * (19/20)
      if sell_amount < env.min_order_amount pos.symbol then
        -- dust: returned order carries the dust flag, so no action is recorded
        { events := acc.events ++ [Event.exitEval pos.symbol], sold := acc.sold, st := st }
      else if env.sell_ok pos.symbol then
        let st := if is_full_exit then clearRecords pos.symbol st else st
        { events := acc.events ++ [Event.exitEval pos.symbol, Event.sellExec pos.symbol is_full_exit],
          sold := acc.sold ++ (if is_full_exit then [pos.symbol] else []),
          st := st }
      else
        { events := acc.events ++ [Event.exitEval pos.symbol], sold := acc.sold, st := st }
    else
      { events := acc.events ++ [Event.exitEval pos.symbol], sold := acc.sold, st := st }

/-- Step 5 of run_once: the rotation check over the positions not sold
this cycle, executing sell-then-buy; the buy is attempted only after a
successful non-dust sell, and the last-rotation timestamp is reset to
now (zero hours since rotation). -/
def rotationPhase (env : Env) (sold : List Symbol) (st : StratState) :
    List Event × List Symbol × StratState :=
  let remaining := env.positions.filter (fun p => !(sold.contains p.symbol))
  if remaining = [] then ([], sold, st)
  else
    match check_rotation st.last_rotation_hours remaining env.market_data with
    | none => ([], sold, st)
    | some plan =>
      match remaining.find? (fun p => decide (p.symbol = plan.sell_symbol)) with
      | none => ([], sold, st)
      | some sell_pos =>
        if sell_pos.amount < env.min_order_amount plan.sell_symbol then ([], sold, st)
        else if env.sell_ok plan.sell_symbol then
          let st := clearRecords plan.sell_symbol st
          let sold := sold ++ [plan.sell_symbol]
          let usdt_amount := sell_pos.current_value * (49/50)
          let buy_data := env.market_data.lookup plan.buy_symbol
          let buyStep : List Event × StratState :=
            if usdt_amount < env.min_order_usdt plan.buy_symbol then ([], st)
            else if env.buy_ok plan.buy_symbol then
              ([Event.rotationBuy plan.buy_symbol], executeBuyRecords env plan.buy_symbol buy_data st)
            else ([], st)
          let st := { buyStep.2 with last_rotation_hours := some 0 }
          (Event.rotationSell plan.sell_symbol :: buyStep.1, sold, st)
        else ([], sold, st)

/-- One iteration of run_once's buy-candidate loop: skip held
currencies, evaluate should_buy, record the evaluation event and
collect the candidate when accepted. -/
def entryScanStep (env : Env) (st : StratState) (held_currencies : List ℕ)
    (unsold : List PosInfo) (acc : List Event × List (Symbol × MarketData × ℚ))
    (sd : Symbol × MarketData) : List Event × List (Symbol × MarketData × ℚ) :=
  if sd.1.base ∈ held_currencies then acc
  else
    let r := should_buy env.corr st.market_regime env.price_history sd.2 unsold
    if r.buy then (acc.1 ++ [Event.entryEval sd.1], acc.2 ++ [(sd.1, sd.2, r.score)])
    else (acc.1 ++ [Event.entryEval sd.1], acc.2)

/-- Step 6 of run_once: entry evaluation. Gated on the current exposure
being below MAX_TOTAL_POSITION_PCT and on free capital; iterates the
score-sorted candidates whose base currency is not held, evaluates
should_buy on each, sizes the first accepted candidate and buys it. -/
def entryPhase (env : Env) (sold : List Symbol) (st : StratState) :
    List Event × StratState :=
  let unsold := env.positions.filter (fun p => !(sold.contains p.symbol))
  let current_positions := unsold.length
  let position_value := (unsold.map (fun p => p.current_value)).sum
  let position_frac := if env.total_value > 0 then position_value / env.total_value else 0
  if position_frac ≥ MAX_TOTAL_POSITION_PCT then ([], st)
  else if env.usdt_free < MIN_TRADE_USDT then ([], st)
  else
    let held_currencies := unsold.map (fun p => p.currency)
    let sorted_coins := env.market_data.mergeSort (fun a b =>
      decide (calculate_coin_score b.2 ≤ calculate_coin_score a.2))
    let scan := sorted_coins.foldl (entryScanStep env st held_currencies unsold) ([], [])
    match scan.2 with
    | [] => (scan.1, st)
    | (symbol, data, _) :: _ =>
      let position_size :=
        calculate_position_size st.market_regime data env.usdt_free env.total_value current_positions
      if position_size ≥ MIN_TRADE_USDT then
        if position_size < env.min_order_usdt symbol then (scan.1, st)
        else if env.buy_ok symbol then
          (scan.1 ++ [Event.buyExec symbol], executeBuyRecords env symbol (some data) st)
        else (scan.1, st)
      else (scan.1, st)

/-- Result of one run_once cycle: the event trace and the final state. -/
structure RunResult where
  events : List Event
  st : StratState
  daily : DailyState

/-- AggressiveMomentumStrategy.run_once: risk check first — on a halt
the cycle returns immediately — then regime detection, exit evaluation
of every open position, the rotation check, and entry evaluation. -/
def runOnce (env : Env) (st0 : StratState) (ds0 : DailyState) : RunResult :=
  -- 1. Risk check
  let risk := check_risk_limits env.equity_history env.today ds0
  match risk.1 with
  | RiskVerdict.drawdownHalt _ => ⟨[Event.riskHalt], st0, risk.2⟩
  | RiskVerdict.dailyLossHalt _ => ⟨[Event.riskHalt], st0, risk.2⟩
  | RiskVerdict.ok =>
    -- 2. Detect market regime
    let st := { st0 with market_regime := env.regime }
    -- 3/4. Market data and exit checks for existing positions
    let ex := env.positions.foldl (exitStep env) ⟨[], [], st⟩
    -- 5. Rotation
    let rot := rotationPhase env ex.sold ex.st
    -- 6. Entries
    let entry := entryPhase env rot.2.1 rot.2.2
    ⟨Event.riskOk :: ex.events ++ rot.1 ++ entry.1, entry.2, risk.2⟩

/-- A level returned by the ladder scan is a ladder entry whose
threshold the P&L meets and that was not already triggered. -/
theorem findPartialLevel_sound (pnl : ℚ) (triggered : List ℚ) (ladder : List (ℚ × ℚ))
    (l p : ℚ) (h : findPartialLevel pnl triggered ladder = some (l, p)) :
    (l, p) ∈ ladder ∧ pnl ≥ l ∧ l ∉ triggered := by
  induction ladder with
  | nil => simp [findPartialLevel] at h
  | cons hd tl ih =>
    rcases hd with ⟨level, portion⟩
    rw [findPartialLevel] at h
    by_cases hc : pnl ≥ level ∧ level ∉ triggered
    · rw [if_pos hc] at h
      cases h
      exact ⟨List.mem_cons_self _ _, hc.1, hc.2⟩
    · rw [if_neg hc] at h
      obtain ⟨hm, hge, hnt⟩ := ih h
      exact ⟨List.mem_cons_of_mem _ hm, hge, hnt⟩

/-- On the concrete ladder (sorted ascending), the level returned by
the scan is the lowest untriggered level whose threshold the P&L
meets: every lower ladder level the P&L also meets is already in the
triggered set. -/
theorem findPartialLevel_lowest (pnl : ℚ) (triggered : List ℚ) (l p : ℚ)
    (h : findPartialLevel pnl triggered PARTIAL_PROFIT_LEVELS = some (l, p)) :
    ∀ l' p', (l', p') ∈ PARTIAL_PROFIT_LEVELS → l' < l → pnl ≥ l' → l' ∈ triggered := by
  rw [PARTIAL_PROFIT_LEVELS] at h ⊢
  rw [findPartialLevel] at h
  by_cases h3 : pnl ≥ 3 ∧ (3 : ℚ) ∉ triggered
  · rw [if_pos h3] at h
    cases h
    intro l' p' hm hlt
    simp only [List.mem_cons, List.mem_singleton, List.not_mem_nil] at hm
    rcases hm with h' | h' | h' | h' <;> simp_all <;> linarith
  · rw [if_neg h3, findPartialLevel] at h
    by_cases h5 : pnl ≥ 5 ∧ (5 : ℚ) ∉ triggered
    · rw [if_pos h5] at h
      cases h
      intro l' p' hm hlt hge
      simp only [List.mem_cons, List.not_mem_nil] at hm
      rcases hm with h' | h' | h' | h'
      · rcases h' with ⟨rfl, rfl⟩
        by_contra hnt
        exact h3 ⟨hge, hnt⟩
      · rcases h' with ⟨rfl, rfl⟩; linarith
      · rcases h' with ⟨rfl, rfl⟩; linarith
      · exact absurd h' (by simp)
    · rw [if_neg h5, findPartialLevel] at h
      by_cases h8 : pnl ≥ 8 ∧ (8 : ℚ) ∉ triggered
      · rw [if_pos h8] at h
        cases h
        intro l' p' hm hlt hge
        simp only [List.mem_cons, List.not_mem_nil] at hm
        rcases hm with h' | h' | h' | h'
        · rcases h' with ⟨rfl, rfl⟩
          by_contra hnt
          exact h3 ⟨hge, hnt⟩
        · rcases h' with ⟨rfl, rfl⟩
          by_contra hnt
          exact h5 ⟨hge, hnt⟩
        · rcases h' with ⟨rfl, rfl⟩; linarith
        · exact absurd h' (by simp)
      · rw [if_neg h8, findPartialLevel] at h
        cases h

set_option maxHeartbeats 1600000 in
/-- The high-water mark written back by should_sell: the stored high
raised to the current price, or the current price when no high was
stored yet — independent of which exit branch is taken. -/
theorem should_sell_high_eq (ctx : SellCtx) (data : MarketData) (pos : PosInfo) :
    (should_sell ctx data pos).high_price =
      match ctx.high_price with
      | none => data.price
      | some h => if data.price > h then data.price else h := by
  cases hfp : findPartialLevel pos.pnl_percent ctx.partial_sells PARTIAL_PROFIT_LEVELS with
  | none =>
    cases hc : ctx.high_price <;>
      simp only [should_sell, hc, hfp, apply_ite SellDecision.high_price, ite_self]
  | some lp =>
    obtain ⟨l, p⟩ := lp
    cases hc : ctx.high_price <;>
      simp only [should_sell, hc, hfp, apply_ite SellDecision.high_price, ite_self]

set_option maxHeartbeats 1600000 in
/-- The triggered-levels set written back by should_sell: unchanged
unless the decision is a partial profit, in which case exactly the
returned ladder level is added and the returned portion is that
level's fraction. -/
theorem should_sell_partial_cases (ctx : SellCtx) (data : MarketData) (pos : PosInfo) :
    ((should_sell ctx data pos).partial_sells = ctx.partial_sells ∧
      ∀ l p, (should_sell ctx data pos).reason ≠ SellReason.PARTIAL_PROFIT l p) ∨
    (∃ l p,
      findPartialLevel pos.pnl_percent ctx.partial_sells PARTIAL_PROFIT_LEVELS = some (l, p) ∧
      (should_sell ctx data pos).reason = SellReason.PARTIAL_PROFIT l p ∧
      (should_sell ctx data pos).partial_sells = l :: ctx.partial_sells ∧
      (should_sell ctx data pos).portion = p) := by
  cases hfp : findPartialLevel pos.pnl_percent ctx.partial_sells PARTIAL_PROFIT_LEVELS with
  | none =>
    refine Or.inl ⟨?_, ?_⟩
    · simp only [should_sell, hfp, apply_ite SellDecision.partial_sells, ite_self]
    · intro l p
      simp only [should_sell, hfp, apply_ite SellDecision.reason, ne_eq, ite_eq_iff]
      simp
  | some lp =>
    obtain ⟨l, p⟩ := lp
    simp only [should_sell, hfp, apply_ite SellDecision.reason,
      apply_ite SellDecision.partial_sells, apply_ite SellDecision.portion]
    split_ifs <;>
      first
        | exact Or.inl ⟨rfl, by simp⟩
        | exact Or.inr ⟨l, p, rfl, rfl, rfl, rfl⟩

set_option maxHeartbeats 1600000 in
/-- The hard stop is the first check of should_sell: the decision is a
full exit with reason STOP_LOSS exactly when the P&L is at or below the
negated ATR-scaled, hard-capped threshold. -/
theorem should_sell_stop_iff (ctx : SellCtx) (data : MarketData) (pos : PosInfo) :
    ((should_sell ctx data pos).sell = true ∧
      (should_sell ctx data pos).reason = SellReason.STOP_LOSS ∧
      (should_sell ctx data pos).portion = 1) ↔
    pos.pnl_percent ≤
      -(rmin ((if pos.avg_price.getD data.price > 0 then
                ctx.entry_atr.getD data.atr / pos.avg_price.getD data.price * 100
              else data.atr_pct) * ATR_STOP_MULTIPLIER) HARD_STOP_LOSS_PCT) := by
  by_cases hc : pos.pnl_percent ≤
      -(rmin ((if pos.avg_price.getD data.price > 0 then
                ctx.entry_atr.getD data.atr / pos.avg_price.getD data.price * 100
              else data.atr_pct) * ATR_STOP_MULTIPLIER) HARD_STOP_LOSS_PCT)
  · simp only [should_sell]
    rw [if_pos hc]
    simpa using hc
  · simp only [should_sell]
    rw [if_neg hc]
    simp only [hc, iff_false]
    cases hfp : findPartialLevel pos.pnl_percent ctx.partial_sells PARTIAL_PROFIT_LEVELS with
    | none =>
      simp only [hfp, apply_ite SellDecision.sell, apply_ite SellDecision.reason,
        apply_ite SellDecision.portion]
      rintro ⟨-, hr, -⟩
      revert hr
      split_ifs <;> simp
    | some lp =>
      obtain ⟨l, p⟩ := lp
      simp only [hfp, apply_ite SellDecision.sell, apply_ite SellDecision.reason,
        apply_ite SellDecision.portion]
      rintro ⟨-, hr, -⟩
      revert hr
      split_ifs <;> simp

/-- A partial-profit decision presupposes that the triggered level was
untriggered, meets the P&L, is a ladder entry, and is recorded. -/
theorem should_sell_partial_requires (ctx : SellCtx) (data : MarketData) (pos : PosInfo)
    (l p : ℚ) (h : (should_sell ctx data pos).reason = SellReason.PARTIAL_PROFIT l p) :
    l ∉ ctx.partial_sells ∧ pos.pnl_percent ≥ l ∧ (l, p) ∈ PARTIAL_PROFIT_LEVELS ∧
    (should_sell ctx data pos).partial_sells = l :: ctx.partial_sells ∧
    (should_sell ctx data pos).portion = p := by
  rcases should_sell_partial_cases ctx data pos with ⟨_, hn⟩ | ⟨l', p', hfp, hr, hps, hport⟩
  · exact absurd h (hn l p)
  · rw [h] at hr
    injection hr with hl hp
    subst hl; subst hp
    obtain ⟨hm, hge, hnt⟩ := findPartialLevel_sound _ _ _ _ _ hfp
    exact ⟨hnt, hge, hm, hps, hport⟩

/-- Once a ladder level is in the triggered set it stays there across
evaluation cycles. -/
theorem stepCtx_partial_mono (ctx : SellCtx) (data : MarketData) (pos : PosInfo)
    (L : ℚ) (h : L ∈ ctx.partial_sells) : L ∈ (stepCtx ctx data pos).partial_sells := by
  rcases should_sell_partial_cases ctx data pos with ⟨hs, _⟩ | ⟨l, p, _, _, hps, _⟩
  · show L ∈ (should_sell ctx data pos).partial_sells
    rw [hs]; exact h
  · show L ∈ (should_sell ctx data pos).partial_sells
    rw [hps]; exact List.mem_cons_of_mem _ h

/-- Whether a decision is a partial exit at the given ladder level. -/
def isPartialAt (L : ℚ) (d : SellDecision) : Bool :=
  match d.reason with
  | SellReason.PARTIAL_PROFIT l _ => decide (l = L)
  | _ => false

/-- The number of decisions in a trace that partially exit at the given
ladder level. -/
def countPartial (L : ℚ) (trace : List SellDecision) : ℕ :=
  trace.countP (isPartialAt L)

/-- A level already in the triggered set never fires again in any later
cycle. -/
theorem countPartial_zero_of_mem (L : ℚ) :
    ∀ (evals : List (MarketData × PosInfo)) (ctx : SellCtx), L ∈ ctx.partial_sells →
      countPartial L (runSellsTrace ctx evals) = 0 := by
  intro evals
  induction evals with
  | nil => intro ctx _; rfl
  | cons e rest ih =>
    intro ctx h
    obtain ⟨data, pos⟩ := e
    rw [runSellsTrace, countPartial, List.countP_cons]
    have hhead : isPartialAt L (should_sell ctx data pos) = false := by
      unfold isPartialAt
      cases hr : (should_sell ctx data pos).reason <;> try rfl
      rename_i l p
      obtain ⟨hnt, _, _, _, _⟩ := should_sell_partial_requires ctx data pos l p hr
      simp only [decide_eq_false_iff_not]
      rintro rfl
      exact hnt h
    rw [hhead]
    simp only [Bool.false_eq_true, if_false, Nat.add_zero]
    exact ih (stepCtx ctx data pos) (stepCtx_partial_mono ctx data pos L h)

/-- A level not yet triggered fires at most once across any sequence of
evaluation cycles. -/
theorem countPartial_le_one (L : ℚ) :
    ∀ (evals : List (MarketData × PosInfo)) (ctx : SellCtx), L ∉ ctx.partial_sells →
      countPartial L (runSellsTrace ctx evals) ≤ 1 := by
  intro evals
  induction evals with
  | nil => intro ctx _; exact Nat.zero_le 1
  | cons e rest ih =>
    intro ctx h
    obtain ⟨data, pos⟩ := e
    rw [runSellsTrace, countPartial, List.countP_cons]
    by_cases hb : isPartialAt L (should_sell ctx data pos) = true
    · have hr : ∃ p, (should_sell ctx data pos).reason = SellReason.PARTIAL_PROFIT L p := by
        unfold isPartialAt at hb
        cases hr : (should_sell ctx data pos).reason <;> rw [hr] at hb <;> try cases hb
        rename_i l p
        simp only [decide_eq_true_eq] at hb
        exact ⟨p, by rw [hb]⟩
      obtain ⟨p, hr⟩ := hr
      obtain ⟨_, _, _, hps, _⟩ := should_sell_partial_requires ctx data pos L p hr
      have hmem : L ∈ (stepCtx ctx data pos).partial_sells := by
        show L ∈ (should_sell ctx data pos).partial_sells
        rw [hps]; exact List.mem_cons_self _ _
      have := countPartial_zero_of_mem L rest (stepCtx ctx data pos) hmem
      rw [countPartial] at this
      rw [hb, this]
      simp
    · rw [Bool.not_eq_true] at hb
      rw [hb]
      have hnot : L ∉ (stepCtx ctx data pos).partial_sells := by
        rcases should_sell_partial_cases ctx data pos with ⟨hs, _⟩ | ⟨l, p, _, hr, hps, _⟩
        · show L ∉ (should_sell ctx data pos).partial_sells
          rw [hs]; exact h
        · show L ∉ (should_sell ctx data pos).partial_sells
          rw [hps]
          have hlL : l ≠ L := by
            intro heq
            subst heq
            unfold isPartialAt at hb
            rw [hr] at hb
            simp at hb
          simp only [List.mem_cons]
          rintro (rfl | hmem)
          · exact hlL rfl
          · exact h hmem
      simpa [countPartial] using ih (stepCtx ctx data pos) hnot

/-- should_sell's decision is unchanged when the stored high-water mark
is replaced in advance by its updated value: the mark is raised before
any exit condition reads it. -/
theorem should_sell_high_update (ctx : SellCtx) (data : MarketData) (pos : PosInfo)
    (h : ℚ) (hh : ctx.high_price = some h) :
    should_sell { ctx with high_price := some (max h data.price) } data pos
      = should_sell ctx data pos := by
  have hm : (if data.price > max h data.price then data.price else max h data.price)
      = (if data.price > h then data.price else h) := by
    rcases lt_trichotomy data.price h with hc | hc | hc
    · rw [max_eq_left hc.le, if_neg (not_lt.mpr hc.le)]
    · rw [hc, max_self]
    · rw [max_eq_right hc.le, if_neg (lt_irrefl _), if_pos hc]
  simp only [should_sell, hh]
  rw [hm]

/-- Threading the state through any sequence of cycles never lowers the
stored high-water mark. -/
theorem runCtx_high_mono :
    ∀ (evals : List (MarketData × PosInfo)) (ctx : SellCtx) (h : ℚ),
      ctx.high_price = some h →
      ∃ h', (runCtx ctx evals).high_price = some h' ∧ h ≤ h' := by
  intro evals
  induction evals with
  | nil => exact fun ctx h hh => ⟨h, hh, le_refl h⟩
  | cons e rest ih =>
    intro ctx h hh
    obtain ⟨data, pos⟩ := e
    rw [runCtx]
    have hs : (stepCtx ctx data pos).high_price
        = some (if data.price > h then data.price else h) := by
      show some (should_sell ctx data pos).high_price = _
      rw [should_sell_high_eq, hh]
    obtain ⟨h', hh', hle⟩ := ih _ _ hs
    refine ⟨h', hh', le_trans ?_ hle⟩
    split_ifs with hc
    · exact hc.le
    · exact le_refl h

/-- A market-data record with the given price and everything else flat
or neutral: no momentum, RSI 50 on both timeframes, no MACD signal, ATR
2 on an entry near 100 (2% volatility), average volume, ADX 20, all
trends up, no OBV signal, no divergence, no pullback. -/
def flatData (price : ℚ) : MarketData :=
  ⟨⟨0, 1⟩, price, 0, 0, 0, 50, 50, 0, 2, 2, 1, false, 20,
    Trend.UP, Trend.UP, Trend.UP, ObvTrend.NEUTRAL, Divergence.NONE, 0, false⟩

/-- A position of one unit entered at 100, at the given current price
and P&L percentage. -/
def flatPos (price pnl : ℚ) : PosInfo := ⟨⟨0, 1⟩, 0, 1, price, price, pnl, some 100⟩

/-- The per-symbol state of a freshly opened position entered at 100
with entry ATR 2 (2% entry volatility), held for one hour, no partial
level triggered, neutral regime. -/
def freshCtx : SellCtx := ⟨Regime.NEUTRAL, some 2, some 100, some 1, []⟩

/-- The evaluation sequence of spec Scenario C: P&L observations of 1%,
3.2%, 4% and 2% on the corresponding prices. -/
def scenarioCEvals : List (MarketData × PosInfo) :=
  [(flatData 101, flatPos 101 1), (flatData (516/5), flatPos (516/5) (16/5)),
   (flatData 104, flatPos 104 4), (flatData 102, flatPos 102 2)]

/-- C1: for every open position evaluated by should_sell, the hard stop
fires (full exit, reason STOP_LOSS) exactly when the P&L percentage is
at or below −min(entry-volatility-percentage × ATR_STOP_MULTIPLIER,
HARD_STOP_LOSS_PCT), the entry volatility percentage being the stored
entry ATR over the entry price; with entry volatility 2% and stop
multiplier 2 the stop fires at the 3.5% cap, the global hard limit
being lower than 4% (see the witness). -/
theorem hard_stop_fires_exactly_at_capped_threshold (ctx : SellCtx) (data : MarketData)
    (pos : PosInfo) (entry_atr entry_price : ℚ)
    (hatr : ctx.entry_atr = some entry_atr)
    (hep : pos.avg_price = some entry_price)
    (hpos : 0 < entry_price) :
    ((should_sell ctx data pos).sell = true ∧
      (should_sell ctx data pos).reason = SellReason.STOP_LOSS ∧
      (should_sell ctx data pos).portion = 1) ↔
    pos.pnl_percent ≤
      -(min (entry_atr / entry_price * 100 * ATR_STOP_MULTIPLIER) HARD_STOP_LOSS_PCT) := by
  have h := should_sell_stop_iff ctx data pos
  rw [hatr, hep] at h
  simp only [Option.getD_some] at h
  rw [if_pos hpos, rmin_eq_min] at h
  exact h

/-- Witness for C1: a position entered at 100 with entry ATR 2 (2%
entry volatility) and P&L −3.5% triggers the full-exit hard stop, the
capped threshold min(4%, 3.5%) = 3.5% being met. -/
theorem hard_stop_fires_exactly_at_capped_threshold_witness :
    (0 : ℚ) < 100 ∧
    ((should_sell freshCtx (flatData (193/2)) (flatPos (193/2) (-7/2))).sell = true ∧
      (should_sell freshCtx (flatData (193/2)) (flatPos (193/2) (-7/2))).reason
        = SellReason.STOP_LOSS ∧
      (should_sell freshCtx (flatData (193/2)) (flatPos (193/2) (-7/2))).portion = 1) :=
  ⟨by norm_num,
    (hard_stop_fires_exactly_at_capped_threshold freshCtx (flatData (193/2))
        (flatPos (193/2) (-7/2)) 2 100 rfl rfl (by norm_num)).mpr
      (by norm_num [flatPos, min_def, ATR_STOP_MULTIPLIER, HARD_STOP_LOSS_PCT])⟩

/-- C2: a given ladder level triggers a partial exit at most once per
position lifetime, however the P&L oscillates across cycles; and on
the spec's Scenario C sequence 1%, 3.2%, 4%, 2% against the ladder, the
30% partial exit at the 3% level fires exactly once, at the 3.2%
observation. -/
theorem partial_level_triggers_at_most_once :
    (∀ (ctx : SellCtx) (evals : List (MarketData × PosInfo)) (L : ℚ),
      L ∉ ctx.partial_sells → countPartial L (runSellsTrace ctx evals) ≤ 1) ∧
    (runSellsTrace freshCtx scenarioCEvals).map SellDecision.reason =
      [SellReason.NONE, SellReason.PARTIAL_PROFIT 3 (3/10), SellReason.NONE, SellReason.NONE] ∧
    (runSellsTrace freshCtx scenarioCEvals).map SellDecision.portion = [0, 3/10, 0, 0] := by
  have hne1 : Regime.NEUTRAL ≠ Regime.BEAR := by decide
  have hne2 : Trend.UP ≠ Trend.DOWN := by decide
  have hne3 : ObvTrend.NEUTRAL ≠ ObvTrend.DOWN := by decide
  have hne4 : Divergence.NONE ≠ Divergence.BEARISH := by decide
  refine ⟨fun ctx evals L h => countPartial_le_one L evals ctx h, ?_, ?_⟩ <;>
    norm_num [runSellsTrace, stepCtx, should_sell, findPartialLevel, freshCtx, scenarioCEvals,
      flatData, flatPos, rmin, PARTIAL_PROFIT_LEVELS, ATR_STOP_MULTIPLIER, HARD_STOP_LOSS_PCT,
      TRAILING_STOP_ATR_MULT, MIN_TAKE_PROFIT_PCT, AGGRESSIVE_TAKE_PROFIT_PCT,
      STALE_POSITION_HOURS, STALE_POSITION_MIN_LOSS, hne1, hne2, hne3, hne4]

/-- Witness for C2: the 3% ladder level, untriggered at entry, fires at
most once over the Scenario C sequence. -/
theorem partial_level_triggers_at_most_once_witness :
    countPartial 3 (runSellsTrace freshCtx scenarioCEvals) ≤ 1 :=
  partial_level_triggers_at_most_once.1 freshCtx scenarioCEvals 3 (by simp [freshCtx])

/-- C5: the high-water mark recorded for an open position is raised to
the current price (so it never decreases) by every should_sell
evaluation; the update happens before any exit condition is checked, so
the decision is unchanged if the stored mark is replaced in advance by
its updated value; and across any sequence of observed prices the
stored mark is non-decreasing. -/
theorem high_water_mark_monotone (ctx : SellCtx) (data : MarketData) (pos : PosInfo)
    (h : ℚ) (hh : ctx.high_price = some h) :
    (should_sell ctx data pos).high_price = max h data.price ∧
    should_sell { ctx with high_price := some (max h data.price) } data pos
      = should_sell ctx data pos ∧
    ∀ evals, ∃ h', (runCtx ctx evals).high_price = some h' ∧ h ≤ h' := by
  refine ⟨?_, should_sell_high_update ctx data pos h hh,
    fun evals => runCtx_high_mono evals ctx h hh⟩
  rw [should_sell_high_eq, hh]
  show (if data.price > h then data.price else h) = max h data.price
  rcases lt_trichotomy data.price h with hc | hc | hc
  · rw [if_neg (not_lt.mpr hc.le), max_eq_left hc.le]
  · rw [hc, max_self, if_neg (lt_irrefl _)]
  · rw [if_pos hc, max_eq_right hc.le]

/-- Witness for C5: a stored high of 100 is raised to 101 when price
101 is observed. -/
theorem high_water_mark_monotone_witness :
    (should_sell freshCtx (flatData 101) (flatPos 101 1)).high_price = max 100 101 :=
  (high_water_mark_monotone freshCtx (flatData 101) (flatPos 101 1) 100 rfl).1

/-- C10: one should_sell call newly marks and returns at most one
ladder level — the triggered set is unchanged or extended by exactly
the returned level — and a returned level is the lowest not-yet-
triggered ladder level whose threshold the current P&L meets, sold at
that level's fraction; higher levels stay untriggered. -/
theorem at_most_one_ladder_level_per_evaluation (ctx : SellCtx) (data : MarketData)
    (pos : PosInfo) :
    ((should_sell ctx data pos).partial_sells = ctx.partial_sells ∨
      ∃ l p, (should_sell ctx data pos).reason = SellReason.PARTIAL_PROFIT l p ∧
        (should_sell ctx data pos).partial_sells = l :: ctx.partial_sells) ∧
    ∀ l p, (should_sell ctx data pos).reason = SellReason.PARTIAL_PROFIT l p →
      (l, p) ∈ PARTIAL_PROFIT_LEVELS ∧ pos.pnl_percent ≥ l ∧ l ∉ ctx.partial_sells ∧
      (should_sell ctx data pos).portion = p ∧
      (should_sell ctx data pos).partial_sells = l :: ctx.partial_sells ∧
      (∀ l' p', (l', p') ∈ PARTIAL_PROFIT_LEVELS → l' < l → pos.pnl_percent ≥ l' →
        l' ∈ ctx.partial_sells) := by
  constructor
  · rcases should_sell_partial_cases ctx data pos with ⟨hs, _⟩ | ⟨l, p, _, hr, hps, _⟩
    · exact Or.inl hs
    · exact Or.inr ⟨l, p, hr, hps⟩
  · intro l p hr
    obtain ⟨hnt, hge, hm, hps, hport⟩ := should_sell_partial_requires ctx data pos l p hr
    rcases should_sell_partial_cases ctx data pos with ⟨_, hn⟩ | ⟨l', p', hfp, hr', _, _⟩
    · exact absurd hr (hn l p)
    · rw [hr] at hr'
      injection hr' with h1 h2
      subst h1; subst h2
      exact ⟨hm, hge, hnt, hport, hps, findPartialLevel_lowest _ _ _ _ hfp⟩

/-- Witness for C10: at P&L 3.2% with no level yet triggered, the call
returns the 3% level at fraction 30%, the lowest level met. -/
theorem at_most_one_ladder_level_per_evaluation_witness :
    (3, 3/10) ∈ PARTIAL_PROFIT_LEVELS ∧
    (flatPos (516/5) (16/5)).pnl_percent ≥ 3 ∧ (3 : ℚ) ∉ freshCtx.partial_sells ∧
    (should_sell freshCtx (flatData (516/5)) (flatPos (516/5) (16/5))).portion = 3/10 ∧
    (should_sell freshCtx (flatData (516/5)) (flatPos (516/5) (16/5))).partial_sells
      = 3 :: freshCtx.partial_sells ∧
    (∀ l' p', (l', p') ∈ PARTIAL_PROFIT_LEVELS → l' < 3 →
      (flatPos (516/5) (16/5)).pnl_percent ≥ l' → l' ∈ freshCtx.partial_sells) :=
  (at_most_one_ladder_level_per_evaluation freshCtx (flatData (516/5))
    (flatPos (516/5) (16/5))).2 3 (3/10) (by
      have hne1 : Regime.NEUTRAL ≠ Regime.BEAR := by decide
      have hne2 : Trend.UP ≠ Trend.DOWN := by decide
      norm_num [should_sell, findPartialLevel, freshCtx, flatData, flatPos, rmin,
        PARTIAL_PROFIT_LEVELS, ATR_STOP_MULTIPLIER, HARD_STOP_LOSS_PCT,
        STALE_POSITION_HOURS, STALE_POSITION_MIN_LOSS, hne1, hne2])

/-- The strategy state constructed by AggressiveMomentumStrategy's
constructor: neutral regime, empty per-symbol dictionaries, no rotation
yet. -/
def initState : StratState := ⟨Regime.NEUTRAL, [], [], [], [], [], none⟩

/-- C7: the signal scorer is pure and deterministic — a call returns
the strategy state unchanged, equal bundles yield equal scores under
any two states, and a repeated call on the state a call returns yields
the same score. -/
theorem coin_score_deterministic_and_pure (s t : StratState) (data : MarketData) :
    (calculate_coin_score_call s data).2 = s ∧
    (calculate_coin_score_call s data).1 = (calculate_coin_score_call t data).1 ∧
    (calculate_coin_score_call ((calculate_coin_score_call s data).2) data).1
      = (calculate_coin_score_call s data).1 :=
  ⟨rfl, rfl, rfl⟩

/-- C6: the risk check computes drawdown as (peak − current)/peak (in
percent) over the stored equity history and reports a drawdown halt
carrying that percentage whenever it exceeds MAX_DRAWDOWN_PCT; the
witness runs Scenario D (history peak 1000, current 850, drawdown 15% >
12%). -/
theorem drawdown_halt_above_limit (history : List ℚ) (today : ℕ) (ds : DailyState)
    (h2 : ¬ history.length < 2)
    (hpeak : history.foldl rmax (history.getLast?.getD 0) > 0)
    (hdd : ((history.foldl rmax (history.getLast?.getD 0) - history.getLast?.getD 0)
        / history.foldl rmax (history.getLast?.getD 0)) * 100 > MAX_DRAWDOWN_PCT) :
    (check_risk_limits history today ds).1
      = RiskVerdict.drawdownHalt
          (((history.foldl rmax (history.getLast?.getD 0) - history.getLast?.getD 0)
            / history.foldl rmax (history.getLast?.getD 0)) * 100) := by
  simp only [check_risk_limits]
  rw [if_neg h2, if_pos hpeak, if_pos ⟨hpeak, hdd⟩]

/-- Witness for C6: on the history [1000, 850] (peak 1000, current 850)
the check halts with drawdown 15, which exceeds the 12 limit. -/
theorem drawdown_halt_above_limit_witness :
    (check_risk_limits [1000, 850] 0 ⟨none, none⟩).1 = RiskVerdict.drawdownHalt 15 ∧
    (15 : ℚ) > MAX_DRAWDOWN_PCT := by
  constructor
  · have h := drawdown_halt_above_limit [1000, 850] 0 ⟨none, none⟩ (by norm_num)
      (by norm_num [rmax, List.getLast?]) (by norm_num [rmax, List.getLast?, MAX_DRAWDOWN_PCT])
    rw [h]
    norm_num [rmax, List.getLast?]
  · norm_num [MAX_DRAWDOWN_PCT]

/-- A market-data record producing a strong signal (score 122 > 30):
momentum 15 accelerating, RSI 32 recovering from oversold with the
15-minute RSI above it, golden cross, all trends up, volume breakout,
ADX 35, OBV agreeing, 2% ATR. -/
def strongData : MarketData :=
  ⟨⟨0, 1⟩, 100, 5, 15, 1, 32, 40, 1, 2, 2, 2, true, 35,
    Trend.UP, Trend.UP, Trend.UP, ObvTrend.UP, Divergence.NONE, 0, false⟩

/-- C3 counterexample, at an accurate account state: total equity 1000
splits exactly into held position value 500 plus free capital 500
(exposure 0.50, so run_once's 0.65 gate lets entry logic run); on a
strong signal calculate_position_size returns 300, which pushes the
aggregate exposure to 0.80 > 0.65. -/
theorem position_sizer_can_exceed_max_total_exposure :
    (500 : ℚ) + 500 = 1000 ∧
    calculate_position_size Regime.BULL strongData 500 1000 1 = 300 ∧
    (500 : ℚ) / 1000 < MAX_TOTAL_POSITION_PCT ∧
    (500 + calculate_position_size Regime.BULL strongData 500 1000 1) / 1000
      > MAX_TOTAL_POSITION_PCT := by
  have hne1 : ObvTrend.UP ≠ ObvTrend.DOWN := by decide
  have hne2 : Regime.BULL ≠ Regime.BEAR := by decide
  have hne3 : Regime.BULL ≠ Regime.NEUTRAL := by decide
  have h : calculate_position_size Regime.BULL strongData 500 1000 1 = 300 := by
    norm_num [calculate_position_size, calculate_coin_score, strongData, min_def, hne1, hne2, hne3,
      BASE_POSITION_PCT, VOLATILITY_TARGET, BEAR_MARKET_POSITION_MULT, VOLUME_BREAKOUT_BONUS,
      MAX_SINGLE_POSITION_PCT, MIN_TRADE_USDT, RSI_OVERSOLD, RSI_STRONG_BUY,
      RSI_BUY_THRESHOLD, RSI_SELL_THRESHOLD]
  refine ⟨by norm_num, h, by norm_num [MAX_TOTAL_POSITION_PCT], ?_⟩
  rw [h]
  norm_num [MAX_TOTAL_POSITION_PCT]

/-- C3 amended: the sizer caps each entry at MAX_SINGLE_POSITION_PCT
(30%) of total equity, so — run_once attempting entries only when the
current exposure ratio is below MAX_TOTAL_POSITION_PCT (0.65) — a
single entry leaves the exposure ratio below 0.65 + 0.30 = 0.95; the
0.65 bound itself is only a pre-trade gate, not a post-trade
invariant. -/
theorem position_sizer_single_position_cap (regime : Regime) (data : MarketData)
    (available_usdt total_value held : ℚ) (n : ℕ) (htv : 0 ≤ total_value) :
    calculate_position_size regime data available_usdt total_value n
      ≤ total_value * MAX_SINGLE_POSITION_PCT ∧
    (0 < total_value → held / total_value < MAX_TOTAL_POSITION_PCT →
      (held + calculate_position_size regime data available_usdt total_value n) / total_value
        < MAX_TOTAL_POSITION_PCT + MAX_SINGLE_POSITION_PCT) := by
  obtain ⟨B, hB⟩ : ∃ B, calculate_position_size regime data available_usdt total_value n =
      if min (min B (total_value * MAX_SINGLE_POSITION_PCT)) (available_usdt * (19/20))
          < MIN_TRADE_USDT then 0
      else min (min B (total_value * MAX_SINGLE_POSITION_PCT)) (available_usdt * (19/20)) :=
    ⟨_, rfl⟩
  have h1 : calculate_position_size regime data available_usdt total_value n
      ≤ total_value * MAX_SINGLE_POSITION_PCT := by
    rw [hB]
    split
    · exact mul_nonneg htv (by norm_num [MAX_SINGLE_POSITION_PCT])
    · exact le_trans (min_le_left _ _) (min_le_right _ _)
  refine ⟨h1, fun hpos hheld => ?_⟩
  have h2 : held < MAX_TOTAL_POSITION_PCT * total_value := (div_lt_iff₀ hpos).mp hheld
  rw [div_lt_iff₀ hpos]
  nlinarith [h1, h2]

/-- Witness for C3's amended claim: at total equity 1000 with held
value 500, free capital 500 and the strong signal, the post-trade
exposure stays below 0.95. -/
theorem position_sizer_single_position_cap_witness :
    (500 + calculate_position_size Regime.BULL strongData 500 1000 1) / 1000
      < MAX_TOTAL_POSITION_PCT + MAX_SINGLE_POSITION_PCT :=
  (position_sizer_single_position_cap Regime.BULL strongData 500 1000 500 1
    (by norm_num)).2 (by norm_num) (by norm_num [MAX_TOTAL_POSITION_PCT])

/-- The fold computing the lowest-scoring holding returns a score no
greater than the initial one and than any scanned element's score. -/
theorem foldl_worst_le (rest : List (Symbol × ℚ)) :
    ∀ init : Symbol × ℚ,
      (rest.foldl (fun w s => if s.2 < w.2 then s else w) init).2 ≤ init.2 ∧
      ∀ x ∈ rest, (rest.foldl (fun w s => if s.2 < w.2 then s else w) init).2 ≤ x.2 := by
  induction rest with
  | nil =>
    intro init
    exact ⟨le_refl _, by intro x hx; cases hx⟩
  | cons hd tl ih =>
    intro init
    rw [List.foldl_cons]
    obtain ⟨h1, h2⟩ := ih (if hd.2 < init.2 then hd else init)
    have hinit : (if hd.2 < init.2 then hd else init).2 ≤ init.2 := by
      split
      · rename_i hlt; exact le_of_lt hlt
      · exact le_refl _
    have hhd : (if hd.2 < init.2 then hd else init).2 ≤ hd.2 := by
      split
      · exact le_refl _
      · rename_i hnlt; exact le_of_not_lt hnlt
    refine ⟨le_trans h1 hinit, ?_⟩
    intro x hx
    rcases List.mem_cons.mp hx with rfl | hx
    · exact le_trans h1 hhd
    · exact h2 x hx

/-- The fold computing the best-scoring unheld candidate returns a
score at least the initial one and at least the score of every scanned
pair whose base currency is not held. -/
theorem foldl_best_ge (held : List ℕ) (l : List (Symbol × ℚ)) :
    ∀ init : Option Symbol × ℚ,
      init.2 ≤ (l.foldl (fun acc s =>
          if s.1.base ∉ held ∧ s.2 > acc.2 then (some s.1, s.2) else acc) init).2 ∧
      ∀ x ∈ l, x.1.base ∉ held →
        x.2 ≤ (l.foldl (fun acc s =>
          if s.1.base ∉ held ∧ s.2 > acc.2 then (some s.1, s.2) else acc) init).2 := by
  induction l with
  | nil =>
    intro init
    exact ⟨le_refl _, by intro x hx; cases hx⟩
  | cons hd tl ih =>
    intro init
    rw [List.foldl_cons]
    obtain ⟨h1, h2⟩ := ih (if hd.1.base ∉ held ∧ hd.2 > init.2 then (some hd.1, hd.2) else init)
    have hstep : init.2
        ≤ (if hd.1.base ∉ held ∧ hd.2 > init.2 then (some hd.1, hd.2) else init).2 := by
      split
      · rename_i hcond; exact le_of_lt hcond.2
      · exact le_refl _
    refine ⟨le_trans hstep h1, ?_⟩
    intro x hx hxu
    rcases List.mem_cons.mp hx with rfl | hx
    · refine le_trans ?_ h1
      by_cases hgt : x.2 > init.2
      · rw [if_pos ⟨hxu, hgt⟩]
      · have hcond : ¬(x.1.base ∉ held ∧ x.2 > init.2) := fun hc => hgt hc.2
        rw [if_neg hcond]
        exact le_of_not_lt hgt
    · exact h2 x hx hxu

/-- C9: a rotation plan is returned only when the cool-down since the
last rotation has elapsed (or no rotation has happened yet), the plan's
buy score exceeds its sell score by more than
MIN_ROTATION_IMPROVEMENT, and the rotated-out holding's P&L is below
1%; moreover the sell side is the lowest-scoring holding with market
data and the buy side scores at least every unheld candidate — in all
other cases no plan is returned. -/
theorem rotation_only_after_cooldown_with_margin_and_low_pnl
    (hours_since : Option ℚ) (current_positions : List PosInfo)
    (market_data : List (Symbol × MarketData)) (plan : RotationPlan)
    (h : check_rotation hours_since current_positions market_data = some plan) :
    (hours_since = none ∨ ∃ hs, hours_since = some hs ∧ ROTATION_INTERVAL_HOURS ≤ hs) ∧
    plan.buy_score > plan.sell_score + MIN_ROTATION_IMPROVEMENT ∧
    plan.improvement = plan.buy_score - plan.sell_score ∧
    (∃ worst_pos ∈ current_positions,
      worst_pos.symbol = plan.sell_symbol ∧ worst_pos.pnl_percent < 1) ∧
    (∀ p ∈ current_positions, ∀ d, market_data.lookup p.symbol = some d →
      plan.sell_score ≤ calculate_coin_score d) ∧
    (∀ sd ∈ market_data, sd.1.base ∉ current_positions.map PosInfo.currency →
      calculate_coin_score sd.2 ≤ plan.buy_score) := by
  simp only [check_rotation] at h
  split at h
  · cases h
  · split at h
    · cases h
    · rename_i hne hcd
      split at h
      · cases h
      · rename_i first rest hscores
        split at h
        · cases h
        · rename_i best_new_symbol hbest
          split at h
          · rename_i hmargin
            split at h
            · cases h
            · rename_i worst_pos hfind
              split at h
              · rename_i hpnl
                injection h with h
                subst h
                refine ⟨?_, hmargin, rfl, ?_, ?_, ?_⟩
                · cases hcase : hours_since with
                  | none => exact Or.inl rfl
                  | some hs =>
                    refine Or.inr ⟨hs, rfl, ?_⟩
                    rw [hcase] at hcd
                    simp only [decide_eq_true_eq] at hcd
                    exact le_of_not_lt hcd
                · refine ⟨worst_pos, List.mem_of_find?_eq_some hfind, ?_, hpnl⟩
                  have := List.find?_some hfind
                  simpa using this
                · intro p hp d hd
                  have hmem : (p.symbol, calculate_coin_score d)
                      ∈ current_positions.filterMap (fun p =>
                        (market_data.lookup p.symbol).map
                          (fun d => (p.symbol, calculate_coin_score d))) := by
                    refine List.mem_filterMap.mpr ⟨p, hp, ?_⟩
                    rw [hd]
                    rfl
                  rw [hscores] at hmem
                  obtain ⟨hle1, hle2⟩ := foldl_worst_le rest first
                  rcases List.mem_cons.mp hmem with heq | hmem
                  · exact le_trans hle1 (by rw [← heq])
                  · exact hle2 _ hmem
                · intro sd hsd hunheld
                  obtain ⟨-, hge⟩ := foldl_best_ge (current_positions.map PosInfo.currency)
                    (market_data.map (fun sd => (sd.1, calculate_coin_score sd.2)))
                    ((none : Option Symbol), (0 : ℚ))
                  exact hge (sd.1, calculate_coin_score sd.2)
                    (List.mem_map.mpr ⟨sd, hsd, rfl⟩) hunheld
              · cases h
          · cases h

/-- A weak open holding: flat momentum, RSI 50, every trend down
(score 5). -/
def mdDown : MarketData :=
  ⟨⟨0, 1⟩, 100, 0, 0, 0, 50, 50, 0, 2, 2, 1, false, 20,
    Trend.DOWN, Trend.DOWN, Trend.DOWN, ObvTrend.NEUTRAL, Divergence.NONE, 0, false⟩

/-- An unheld candidate with momentum score 10 (score 35). -/
def mdStrongB : MarketData := { mdDown with symbol := ⟨2, 1⟩, momentum_score := 10 }

/-- The open position holding mdDown's instrument at zero P&L. -/
def rotPos : PosInfo := ⟨⟨0, 1⟩, 0, 1, 100, 100, 0, some 100⟩

/-- Market data for the rotation witness: the weak holding and the
strong unheld candidate. -/
def rotMarket : List (Symbol × MarketData) := [(⟨0, 1⟩, mdDown), (⟨2, 1⟩, mdStrongB)]

/-- Witness for C9: seven hours after the last rotation, a holding
scoring 5 at 0% P&L against an unheld candidate scoring 35 yields a
plan whose margin exceeds the minimum improvement, and the rotated-out
position is the low-P&L holding. -/
theorem rotation_only_after_cooldown_witness :
    ((35 : ℚ) > 5 + MIN_ROTATION_IMPROVEMENT) ∧
    (∃ worst_pos ∈ [rotPos], worst_pos.symbol = Symbol.mk 0 1 ∧ worst_pos.pnl_percent < 1) := by
  have hne1 : Trend.DOWN ≠ Trend.UP := by decide
  have hne2 : ObvTrend.NEUTRAL ≠ ObvTrend.UP := by decide
  have hne3 : ObvTrend.NEUTRAL ≠ ObvTrend.DOWN := by decide
  have hne4 : Divergence.NONE ≠ Divergence.BULLISH := by decide
  have hne5 : Divergence.NONE ≠ Divergence.BEARISH := by decide
  have heval : check_rotation (some 7) [rotPos] rotMarket
      = some ⟨⟨0, 1⟩, 5, ⟨2, 1⟩, 35, 30⟩ := by
    norm_num [check_rotation, calculate_coin_score, rotPos, rotMarket, mdDown, mdStrongB,
      List.lookup, List.filterMap, List.foldl, List.find?,
      hne1, hne2, hne3, hne4, hne5,
      ROTATION_INTERVAL_HOURS, MIN_ROTATION_IMPROVEMENT, VOLUME_BREAKOUT_BONUS,
      RSI_OVERSOLD, RSI_STRONG_BUY, RSI_BUY_THRESHOLD, RSI_SELL_THRESHOLD]
  have h := rotation_only_after_cooldown_with_margin_and_low_pnl (some 7) [rotPos] rotMarket
    _ heval
  exact ⟨h.2.1, h.2.2.2.1⟩

/-- The left argument never exceeds the running maximum. -/
theorem le_rmax_left (a b : ℚ) : a ≤ rmax a b := by
  rw [rmax]
  split
  · rename_i hab; exact hab
  · exact le_refl a

/-- The right argument never exceeds the running maximum. -/
theorem le_rmax_right (a b : ℚ) : b ≤ rmax a b := by
  rw [rmax]
  split
  · exact le_refl b
  · rename_i hab; exact le_of_not_le hab

/-- The correlation fold of check_position_correlation never decreases
its accumulator, and its result is at least the absolute correlation of
every scanned position that has at least 20 aligned price points. -/
theorem corr_fold_ge (corr : List ℚ → List ℚ → ℚ) (price_data : List (Symbol × List ℚ))
    (new_prices : List ℚ) (l : List PosInfo) :
    ∀ a : ℚ,
      a ≤ l.foldl (fun max_corr pos =>
        match price_data.lookup pos.symbol with
        | some pos_prices =>
          if 20 ≤ min new_prices.length pos_prices.length then
            rmax max_corr
              (rabs (corr
                (new_prices.drop (new_prices.length - min new_prices.length pos_prices.length))
                (pos_prices.drop (pos_prices.length - min new_prices.length pos_prices.length))))
          else max_corr
        | none => max_corr) a ∧
      ∀ pos ∈ l, ∀ pp, price_data.lookup pos.symbol = some pp →
        20 ≤ min new_prices.length pp.length →
        rabs (corr (new_prices.drop (new_prices.length - min new_prices.length pp.length))
            (pp.drop (pp.length - min new_prices.length pp.length)))
          ≤ l.foldl (fun max_corr pos =>
            match price_data.lookup pos.symbol with
            | some pos_prices =>
              if 20 ≤ min new_prices.length pos_prices.length then
                rmax max_corr
                  (rabs (corr
                    (new_prices.drop
                      (new_prices.length - min new_prices.length pos_prices.length))
                    (pos_prices.drop
                      (pos_prices.length - min new_prices.length pos_prices.length))))
              else max_corr
            | none => max_corr) a := by
  induction l with
  | nil =>
    intro a
    exact ⟨le_refl _, by intro pos hp; cases hp⟩
  | cons hd tl ih =>
    intro a
    rw [List.foldl_cons]
    have hstep : ∀ b : ℚ, b ≤ (match price_data.lookup hd.symbol with
        | some pos_prices =>
          if 20 ≤ min new_prices.length pos_prices.length then
            rmax b (rabs (corr
              (new_prices.drop (new_prices.length - min new_prices.length pos_prices.length))
              (pos_prices.drop (pos_prices.length - min new_prices.length pos_prices.length))))
          else b
        | none => b) := by
      intro b
      cases hl : price_data.lookup hd.symbol with
      | none => exact le_refl b
      | some pp =>
        simp only []
        split
        · exact le_rmax_left _ _
        · exact le_refl b
    obtain ⟨h1, h2⟩ := ih _
    refine ⟨le_trans (hstep a) h1, ?_⟩
    intro pos hp pp hpp hlen
    rcases List.mem_cons.mp hp with rfl | hp
    · refine le_trans ?_ h1
      rw [hpp]
      simp only []
      rw [if_pos hlen]
      exact le_rmax_right _ _
    · exact h2 pos hp pp hpp hlen

/-- C8: an entry candidate that passes the earlier entry filters is
rejected with a correlation reason whenever the absolute price-series
correlation to some existing open position (on at least 20 aligned
points) exceeds MAX_CORRELATION. -/
theorem correlated_entry_rejected (corr : List ℚ → List ℚ → ℚ) (regime : Regime)
    (price_history : List (Symbol × List ℚ)) (data : MarketData)
    (existing_positions : List PosInfo) (pos : PosInfo) (new_prices pos_prices : List ℚ)
    (h1 : ¬ calculate_coin_score data < 10)
    (h2 : ¬(regime = Regime.BEAR ∧ calculate_coin_score data < 25))
    (h3 : ¬(data.trend_1h = Trend.DOWN ∧ data.trend_4h = Trend.DOWN ∧
        calculate_coin_score data < 25))
    (h4 : ¬ data.rsi_1h > 75)
    (h5 : ¬ data.momentum_short < -1)
    (h6 : ¬(data.adx < 15 ∧ calculate_coin_score data < 20))
    (hne : existing_positions ≠ [])
    (hnp : price_history.lookup data.symbol = some new_prices)
    (hpos : pos ∈ existing_positions)
    (hpp : price_history.lookup pos.symbol = some pos_prices)
    (hlen : 20 ≤ min new_prices.length pos_prices.length)
    (hcorr : rabs (corr
        (new_prices.drop (new_prices.length - min new_prices.length pos_prices.length))
        (pos_prices.drop (pos_prices.length - min new_prices.length pos_prices.length)))
      > MAX_CORRELATION) :
    (should_buy corr regime price_history data existing_positions).buy = false ∧
    ∃ mc, mc > MAX_CORRELATION ∧
      (should_buy corr regime price_history data existing_positions).reject
        = some (BuyReject.tooCorrelated mc) := by
  obtain ⟨-, hge⟩ := corr_fold_ge corr price_history new_prices existing_positions 0
  have hmc := hge pos hpos pos_prices hpp hlen
  have hgt := lt_of_lt_of_le hcorr hmc
  have hcheck : check_position_correlation corr data.symbol existing_positions price_history
      = (false, existing_positions.foldl (fun max_corr pos =>
          match price_history.lookup pos.symbol with
          | some pos_prices =>
            if 20 ≤ min new_prices.length pos_prices.length then
              rmax max_corr
                (rabs (corr
                  (new_prices.drop
                    (new_prices.length - min new_prices.length pos_prices.length))
                  (pos_prices.drop
                    (pos_prices.length - min new_prices.length pos_prices.length))))
            else max_corr
          | none => max_corr) 0) := by
    simp only [check_position_correlation]
    rw [if_neg hne, hnp]
    simp only []
    rw [decide_eq_false (not_le.mpr hgt)]
  simp only [should_buy]
  rw [if_neg h1, if_neg h2, if_neg h3, if_neg h4, if_neg h5, if_neg h6,
    if_pos ⟨hne, by rw [hcheck]⟩]
  exact ⟨rfl, _, hgt, by rw [hcheck]⟩

/-- An open position on the candidate-correlated instrument for the C8
witness. -/
def corrPos : PosInfo := ⟨⟨2, 1⟩, 2, 1, 100, 100, 0, some 100⟩

/-- Price histories of 20 points for the candidate and the held
instrument. -/
def corrHistory : List (Symbol × List ℚ) :=
  [(⟨0, 1⟩, List.replicate 20 1), (⟨2, 1⟩, List.replicate 20 1)]

/-- Witness for C8: with a pairwise correlation of 0.9 against the held
position and every earlier filter passing (score 20), the entry is
rejected citing a correlation above the 0.85 ceiling. -/
theorem correlated_entry_rejected_witness :
    (should_buy (fun _ _ => 9/10) Regime.NEUTRAL corrHistory (flatData 100) [corrPos]).buy
      = false ∧
    ∃ mc, mc > MAX_CORRELATION ∧
      (should_buy (fun _ _ => 9/10) Regime.NEUTRAL corrHistory (flatData 100) [corrPos]).reject
        = some (BuyReject.tooCorrelated mc) := by
  have hs : calculate_coin_score (flatData 100) = 20 := by
    have hne2 : ObvTrend.NEUTRAL ≠ ObvTrend.UP := by decide
    have hne3 : ObvTrend.NEUTRAL ≠ ObvTrend.DOWN := by decide
    norm_num [calculate_coin_score, flatData, hne2, hne3, VOLUME_BREAKOUT_BONUS,
      RSI_OVERSOLD, RSI_STRONG_BUY, RSI_BUY_THRESHOLD, RSI_SELL_THRESHOLD]
  refine correlated_entry_rejected (fun _ _ => 9/10) Regime.NEUTRAL corrHistory (flatData 100)
    [corrPos] corrPos (List.replicate 20 1) (List.replicate 20 1)
    (by rw [hs]; norm_num) (by rw [hs]; rintro ⟨hr, -⟩; cases hr)
    (by rintro ⟨hr, -⟩; simp [flatData] at hr)
    (by norm_num [flatData]) (by norm_num [flatData]) (by rw [hs]; norm_num [flatData])
    (by simp) (by decide) (by simp) (by decide) (by decide)
    (by norm_num [rabs, MAX_CORRELATION])

/-- Whether an event belongs to exit evaluation (an exit check or its
resulting sell order). -/
def isExitEvent : Event → Bool
  | Event.exitEval _ => true
  | Event.sellExec _ _ => true
  | _ => false

/-- Whether an event belongs to entry evaluation (an entry check or its
resulting buy order). -/
def isEntryEvent : Event → Bool
  | Event.entryEval _ => true
  | Event.buyExec _ => true
  | _ => false

/-- The exit-evaluation loop only emits exit events: no entry event
appears in its trace. -/
theorem exit_loop_no_entry_events (env : Env) :
    ∀ (positions : List PosInfo) (acc : ExitPhaseResult),
      (∀ e ∈ acc.events, isEntryEvent e = false) →
      ∀ e ∈ (positions.foldl (exitStep env) acc).events, isEntryEvent e = false := by
  intro positions
  induction positions with
  | nil => exact fun acc hacc => hacc
  | cons p tl ih =>
    intro acc hacc
    rw [List.foldl_cons]
    refine ih _ ?_
    simp only [exitStep]
    split
    · exact hacc
    · repeat' split
      all_goals
        first
          | exact hacc
          | exact List.forall_mem_append.mpr ⟨hacc, by simp [isEntryEvent]⟩

/-- The rotation phase emits neither exit-evaluation nor
entry-evaluation events. -/
theorem rotation_phase_events (env : Env) (sold : List Symbol) (st : StratState) :
    ∀ e ∈ (rotationPhase env sold st).1, isExitEvent e = false ∧ isEntryEvent e = false := by
  simp only [rotationPhase]
  repeat' split
  all_goals simp [isExitEvent, isEntryEvent]

set_option maxHeartbeats 3200000 in
/-- The entry phase only emits entry events: no exit event appears in
its trace. -/
theorem entry_phase_no_exit_events (env : Env) (sold : List Symbol) (st : StratState) :
    ∀ e ∈ (entryPhase env sold st).1, isExitEvent e = false := by
  have hscan : ∀ (f : (List Event × List (Symbol × MarketData × ℚ)) → (Symbol × MarketData)
        → (List Event × List (Symbol × MarketData × ℚ))),
      (∀ acc sd, (f acc sd).1 = acc.1 ∨ (f acc sd).1 = acc.1 ++ [Event.entryEval sd.1]) →
      ∀ (l : List (Symbol × MarketData)) (acc : List Event × List (Symbol × MarketData × ℚ)),
        (∀ e ∈ acc.1, isExitEvent e = false) →
        ∀ e ∈ (l.foldl f acc).1, isExitEvent e = false := by
    intro f hf l
    induction l with
    | nil => exact fun acc hacc => hacc
    | cons hd tl ih =>
      intro acc hacc
      rw [List.foldl_cons]
      refine ih _ ?_
      rcases hf acc hd with h | h
      · rw [h]; exact hacc
      · rw [h]; exact List.forall_mem_append.mpr ⟨hacc, by simp [isExitEvent]⟩
  have hf : ∀ (held : List ℕ) (unsold : List PosInfo)
      (acc : List Event × List (Symbol × MarketData × ℚ)) (sd : Symbol × MarketData),
      (entryScanStep env st held unsold acc sd).1 = acc.1 ∨
      (entryScanStep env st held unsold acc sd).1 = acc.1 ++ [Event.entryEval sd.1] := by
    intro held unsold acc sd
    simp only [entryScanStep]
    split
    · exact Or.inl rfl
    · split
      · exact Or.inr rfl
      · exact Or.inr rfl
  simp only [entryPhase]
  repeat' split
  all_goals
    first
      | (intro e he
         rcases List.mem_append.mp he with hm | hm
         · exact hscan _ (hf _ _) _ _ (by simp) e hm
         · simp only [List.mem_singleton] at hm
           subst hm
           rfl)
      | (intro e he
         exact hscan _ (hf _ _) _ _ (by simp) e he)
      | simp

/-- The strategy state and environment of the C4 counterexample: an
equity history in 15% drawdown and one open position at −5% P&L whose
stop loss would fire. -/
def haltPos : PosInfo := ⟨⟨0, 1⟩, 0, 1, 95, 95, -5, some 100⟩

/-- Environment whose equity history (peak 1000, current 850) breaches
the drawdown limit while a losing position is open. -/
def haltEnv : Env :=
  { equity_history := [1000, 850]
    today := 0
    regime := Regime.NEUTRAL
    market_data := [(⟨0, 1⟩, flatData 95)]
    positions := [haltPos]
    min_order_amount := fun _ => 0
    min_order_usdt := fun _ => 0
    sell_ok := fun _ => true
    buy_ok := fun _ => true
    fill_price := fun _ => 100
    total_value := 1000
    usdt_free := 500
    corr := fun _ _ => 0
    price_history := [] }

/-- C4 counterexample: in a halted cycle the trace is only the risk
halt — no exit evaluation runs and the open position is not examined —
even though should_sell would order a full stop-loss exit for it, so
positions cannot be closed while halted. -/
theorem risk_halt_skips_exit_evaluation :
    (runOnce haltEnv initState ⟨none, none⟩).events = [Event.riskHalt] ∧
    (should_sell (ctxFor initState ⟨0, 1⟩) (flatData 95) haltPos).sell = true ∧
    Event.exitEval ⟨0, 1⟩ ∉ (runOnce haltEnv initState ⟨none, none⟩).events := by
  have hv : (check_risk_limits haltEnv.equity_history haltEnv.today ⟨none, none⟩).1
      = RiskVerdict.drawdownHalt 15 := by
    norm_num [check_risk_limits, haltEnv, rmax, List.getLast?, MAX_DRAWDOWN_PCT]
  have h1 : (runOnce haltEnv initState ⟨none, none⟩).events = [Event.riskHalt] := by
    simp only [runOnce]
    rw [hv]
  refine ⟨h1, ?_, ?_⟩
  · norm_num [should_sell, ctxFor, initState, flatData, haltPos, rmin, List.lookup,
      ATR_STOP_MULTIPLIER, HARD_STOP_LOSS_PCT]
  · rw [h1]
    simp

/-- C4 amended: whenever check_risk_limits reports a halt, run_once
returns immediately — its trace is just the risk halt, with neither
exit evaluation nor entry evaluation (so open positions are not closed
while halted); in every cycle the risk check comes first, and every
exit-evaluation event precedes every entry-evaluation event. -/
theorem risk_halt_first_and_skips_all_evaluation (env : Env) (st : StratState)
    (ds : DailyState) :
    ((check_risk_limits env.equity_history env.today ds).1 ≠ RiskVerdict.ok →
      (runOnce env st ds).events = [Event.riskHalt]) ∧
    ((runOnce env st ds).events.head? = some Event.riskHalt ∨
      (runOnce env st ds).events.head? = some Event.riskOk) ∧
    ∃ pre post, (runOnce env st ds).events = pre ++ post ∧
      (∀ e ∈ pre, isEntryEvent e = false) ∧ (∀ e ∈ post, isExitEvent e = false) := by
  cases hv : (check_risk_limits env.equity_history env.today ds).1 with
  | drawdownHalt dd =>
    have h1 : (runOnce env st ds).events = [Event.riskHalt] := by
      simp only [runOnce]
      rw [hv]
    refine ⟨fun _ => h1, Or.inl (by rw [h1]; rfl), [Event.riskHalt], [], by rw [h1]; rfl,
      by simp [isEntryEvent], by simp⟩
  | dailyLossHalt dp =>
    have h1 : (runOnce env st ds).events = [Event.riskHalt] := by
      simp only [runOnce]
      rw [hv]
    refine ⟨fun _ => h1, Or.inl (by rw [h1]; rfl), [Event.riskHalt], [], by rw [h1]; rfl,
      by simp [isEntryEvent], by simp⟩
  | ok =>
    have h1 : (runOnce env st ds).events
        = Event.riskOk ::
            (env.positions.foldl (exitStep env) ⟨[], [], { st with market_regime := env.regime }⟩).events
          ++ (rotationPhase env
              (env.positions.foldl (exitStep env) ⟨[], [], { st with market_regime := env.regime }⟩).sold
              (env.positions.foldl (exitStep env) ⟨[], [], { st with market_regime := env.regime }⟩).st).1
          ++ (entryPhase env
              (rotationPhase env
                (env.positions.foldl (exitStep env) ⟨[], [], { st with market_regime := env.regime }⟩).sold
                (env.positions.foldl (exitStep env) ⟨[], [], { st with market_regime := env.regime }⟩).st).2.1
              (rotationPhase env
                (env.positions.foldl (exitStep env) ⟨[], [], { st with market_regime := env.regime }⟩).sold
                (env.positions.foldl (exitStep env) ⟨[], [], { st with market_regime := env.regime }⟩).st).2.2).1 := by
      simp only [runOnce]
      rw [hv]
    refine ⟨fun hne => absurd rfl hne, Or.inr (by rw [h1]; rfl), ?_⟩
    refine ⟨Event.riskOk ::
        (env.positions.foldl (exitStep env) ⟨[], [], { st with market_regime := env.regime }⟩).events
        ++ (rotationPhase env
            (env.positions.foldl (exitStep env) ⟨[], [], { st with market_regime := env.regime }⟩).sold
            (env.positions.foldl (exitStep env) ⟨[], [], { st with market_regime := env.regime }⟩).st).1,
      (entryPhase env
          (rotationPhase env
            (env.positions.foldl (exitStep env) ⟨[], [], { st with market_regime := env.regime }⟩).sold
            (env.positions.foldl (exitStep env) ⟨[], [], { st with market_regime := env.regime }⟩).st).2.1
          (rotationPhase env
            (env.positions.foldl (exitStep env) ⟨[], [], { st with market_regime := env.regime }⟩).sold
            (env.positions.foldl (exitStep env) ⟨[], [], { st with market_regime := env.regime }⟩).st).2.2).1,
      ?_, ?_, ?_⟩
    · rw [h1]
    · intro e he
      rcases List.mem_cons.mp he with rfl | he
      · rfl
      · rcases List.mem_append.mp he with he | he
        · exact exit_loop_no_entry_events env env.positions _ (by simp) e he
        · exact (rotation_phase_events env _ _ e he).2
    · exact entry_phase_no_exit_events env _ _

/-- Witness for C4's amended claim: in the drawdown-breached
environment the whole cycle trace is the risk halt alone. -/
theorem risk_halt_first_and_skips_all_evaluation_witness :
    (runOnce haltEnv initState ⟨none, none⟩).events = [Event.riskHalt] :=
  (risk_halt_first_and_skips_all_evaluation haltEnv initState ⟨none, none⟩).1 (by
    have hv : (check_risk_limits haltEnv.equity_history haltEnv.today ⟨none, none⟩).1
        = RiskVerdict.drawdownHalt 15 := by
      norm_num [check_risk_limits, haltEnv, rmax, List.getLast?, MAX_DRAWDOWN_PCT]
    rw [hv]
    intro hcc
    cases hcc)

end QuantBot
